import Mathlib

/-!
Verification of the sqlx fork's SQL nullability-inference engine
(`sqlx-nullable`) and of selected parts of the PostgreSQL connection layer
(`sqlx-postgres`), as a shallow embedding in Lean 4.

The embedding translates the Rust sources function by function:

* `sqlx-nullable/src/table.rs`    → `Table`, `TableColumn`, `Tables`
* `sqlx-nullable/src/wal.rs`      → `WalEntry`, `Wal`
* `sqlx-nullable/src/source.rs`   → `Source`
* `sqlx-nullable/src/context.rs`  → `Context` and its methods
* `sqlx-nullable/src/nullable.rs` → `NullableResult`, `Nullable`,
  `StatementNullable`
* `sqlx-nullable/src/join_resolver.rs` → `JoinResolver`
* `sqlx-nullable/src/expr.rs`     → `visit_expr`, `get_nullable_col`
* `sqlx-nullable/src/join.rs`, `where_.rs`, `select.rs`, `select_item.rs`,
  `set_expr.rs`, `state/mod.rs` → the analysis pipeline
* `sqlx-postgres/src/connection/stmt_cache.rs` → `SharedStatementCache`
* `sqlx-postgres/src/connection/worker/{mod,message}.rs` → worker backlog model
* `sqlx-postgres/src/transaction.rs` → `PgTransactionManager.begin`

Rust `panic!`/index-out-of-bounds/`unwrap` and `anyhow` errors are both
modelled by `Option.none` (the distinction never matters for the properties
proved here; where it does, it is called out in the doc comment).  Rust
mutation of `&mut Context` is modelled by explicit state passing.

The SQL parser (`sqlparser`) is an external collaborator: the engine consumes
an already-parsed AST, so the embedding defines the AST fragment covering the
constructs exercised by the analysed queries and starts from parsed values.
`sqlparser`'s `Ident` carries a value and an optional quote style; every
identifier in the analysed queries is unquoted, so `Ident` is embedded as the
bare string value.
-/

namespace SqlxNullable

abbrev Ident := String

/-- `TableColumn` from `table.rs`: a column with its catalog-provided baseline
nullability and the ids linking it to its table. -/
structure TableColumn where
  column_name : Option Ident
  catalog_nullable : Bool
  column_id : Nat
  table_id : Nat
deriving Repr, DecidableEq

/-- `Table` from `table.rs`. -/
structure Table where
  table_id : Nat
  original_name : Option (List Ident)
  table_name : Option (List Ident)
  columns : List TableColumn
deriving Repr, DecidableEq

/-- `Table::new`: fresh table with id 0 and both names set to the given name. -/
def Table.new (table_name : Option (List Ident)) : Table :=
  { table_id := 0, table_name := table_name, original_name := table_name, columns := [] }

/-- `Table::push_column`: append a named column; the new column's id is the
current column count and its table id is the table's current id. -/
def Table.push_column (t : Table) (column_name : String) (catalog_nullable : Bool) : Table :=
  { t with columns := t.columns ++
      [{ column_name := some column_name, catalog_nullable := catalog_nullable,
         column_id := t.columns.length, table_id := t.table_id }] }

/-- `Table::push_column2`: append a column with an optional name. -/
def Table.push_column2 (t : Table) (column_name : Option Ident) (catalog_nullable : Bool) :
    Table :=
  { t with columns := t.columns ++
      [{ column_name := column_name, catalog_nullable := catalog_nullable,
         column_id := t.columns.length, table_id := t.table_id }] }

/-- `Table::equals`: equality of `table_name` only. -/
def Table.equals (a b : Table) : Bool :=
  decide (a.table_name = b.table_name)

/-- `Table::add_alias` (via the `ToOptName` impl for `&Option<TableAlias>`):
when an alias is present, `table_name` becomes the one-segment alias name. -/
def Table.add_alias (t : Table) (aliasName : Option Ident) : Table :=
  match aliasName with
  | some a => { t with table_name := some [a] }
  | none => t

/-- `Tables` from `table.rs`: the collection of active tables. -/
abbrev Tables := List Table

/-- `Tables::push`: skip tables whose `table_name` equals a stored one;
otherwise re-id the table (and all its columns) with the current length and
append. -/
def Tables.push (ts : Tables) (t : Table) : Tables :=
  if ts.any (fun cur => cur.equals t) then ts
  else
    let t := { t with
      table_id := ts.length,
      columns := t.columns.map (fun c => { c with table_id := ts.length }) }
    ts ++ [t]

/-- `Tables::find_table_by_idents_table`. -/
def Tables.find_table_by_idents_table (ts : Tables) (name : List Ident) : Option Table :=
  ts.find? (fun t => decide (t.table_name = some name))

/-- `Tables::find_col_by_idents`: a single bare identifier is looked up across
all columns of all tables; a qualified name is resolved first against table
aliases (`table_name`), then against original table names. -/
def Tables.find_col_by_idents (ts : Tables) (name : List Ident) :
    Option (TableColumn × Table) :=
  let phase1 : Option (TableColumn × Table) :=
    if name.length = 1 then
      ts.findSome? (fun table =>
        (table.columns.find? (fun col => decide (col.column_name = name.head?))).map
          (fun col => (col, table)))
    else none
  match phase1 with
  | some r => some r
  | none =>
    let phase2 : Option (TableColumn × Table) :=
      (ts.find? (fun t => decide (t.table_name = some name.dropLast))).bind
        (fun table =>
          (table.columns.find? (fun col => decide (col.column_name = name.getLast?))).map
            (fun col => (col, table)))
    match phase2 with
    | some r => some r
    | none =>
      (ts.find? (fun t => decide (t.original_name = some name.dropLast))).bind
        (fun table =>
          (table.columns.find? (fun col => decide (col.column_name = name.getLast?))).map
            (fun col => (col, table)))

/-- `Tables::find_cols_by_idents`: all columns (with their tables) whose name
matches the first segment.  The Rust indexes `name[0]` and would panic on an
empty list; no caller passes one, and the embedding returns `[]` there. -/
def Tables.find_cols_by_idents (ts : Tables) (name : List Ident) :
    List (TableColumn × Table) :=
  match name.head? with
  | none => []
  | some n0 =>
    ts.flatMap (fun table =>
      (table.columns.filter (fun col => decide (col.column_name = some n0))).map
        (fun col => (col, table)))

/-- `WalEntry` from `wal.rs`. -/
inductive WalEntry where
  | tableNullable (table_id : Nat) (nullable : Bool)
  | columnNullable (table_id : Nat) (column_id : Nat) (nullable : Bool)
deriving Repr, DecidableEq

/-- `Wal` from `wal.rs`: an append-only log of learned nullability facts. -/
abbrev Wal := List WalEntry

/-- `Wal::add_table`. -/
def Wal.add_table (w : Wal) (table_id : Nat) (nullable : Bool) : Wal :=
  w ++ [WalEntry.tableNullable table_id nullable]

/-- `Wal::add_column`. -/
def Wal.add_column (w : Wal) (table_id : Nat) (column_id : Nat) (nullable : Bool) : Wal :=
  w ++ [WalEntry.columnNullable table_id column_id nullable]

/-- `Wal::nullable_for_col`: scan the log in reverse for the most recent
per-(table, column) entry for this table id and column id. -/
def Wal.nullable_for_col (w : Wal) (table : Table) (column_id : Nat) : Option Bool :=
  w.reverse.findSome? (fun e =>
    match e with
    | WalEntry.columnNullable t c n =>
      if t = table.table_id ∧ c = column_id then some n else none
    | _ => none)

/-- `SqlFlavour` from `lib.rs`. -/
inductive SqlFlavour where
  | postgres
  | sqlite
deriving Repr, DecidableEq

/-- `Source` from `source.rs`: catalog snapshot plus parameter nullability. -/
structure Source where
  tables : List Table
  params : List Bool
  next_param_index : Nat
deriving Repr, DecidableEq

/-- `Source::new`. -/
def Source.new (tables : List Table) : Source :=
  { tables := tables, params := [], next_param_index := 0 }

/-- `Source::find_by_original_name`. -/
def Source.find_by_original_name (s : Source) (name : List Ident) : Option Table :=
  s.tables.find? (fun t => decide (t.original_name = some name))

/-- `Source::push` (used by CTE registration). -/
def Source.push (s : Source) (t : Table) : Source :=
  { s with tables := s.tables ++ [t] }

/-- `NullableResult` from `nullable.rs`: one projected column's inferred value
(`none` = unknown). -/
structure NullableResult where
  column_name : Option Ident
  value : Option Bool
deriving Repr, DecidableEq

/-- `NullableResult::unnamed`. -/
def NullableResult.unnamed (value : Option Bool) : NullableResult :=
  { column_name := none, value := value }

/-- `NullableResult::set_alias`: an alias, when present, replaces the name. -/
def NullableResult.set_alias (r : NullableResult) (aliasName : Option Ident) : NullableResult :=
  if aliasName.isSome then { r with column_name := aliasName } else r

/-- The three-valued combination used (textually identically) by
`NullableResult::combine`, `StatementNullable::get_nullable` and
`StatementNullable::flatten`: OR when both sides are known, the known side
when one is unknown, unknown when both are. -/
def combineValues : Option Bool → Option Bool → Option Bool
  | some a, some b => some (a || b)
  | some a, none => some a
  | none, some b => some b
  | none, none => none

/-- `Nullable` from `nullable.rs`: one arm's projection, in order. -/
abbrev Nullable := List NullableResult

/-- `Nullable::l_find_index`: first entry (from the left) named `col_name`,
with its index and value. -/
def Nullable.l_find_index (ns : Nullable) (col_name : Ident) : Option (Nat × Option Bool) :=
  ns.enum.findSome? (fun p =>
    if p.2.column_name = some col_name then some (p.1, p.2.value) else none)

/-- `Nullable::r_find_index`: last entry (scanning from the right) named
`col_name`. -/
def Nullable.r_find_index (ns : Nullable) (col_name : Ident) : Option (Nat × Option Bool) :=
  ns.enum.reverse.findSome? (fun p =>
    if p.2.column_name = some col_name then some (p.1, p.2.value) else none)

/-- `Nullable::nullable`: when the name occurs at the same position scanned
from the left and from the right, that entry's value; otherwise the entry at
`index`.  The Rust indexes `self.0[index]` there, which panics when `index` is
out of bounds; the panic is modelled by the outer `none`. -/
def Nullable.nullable (ns : Nullable) (col_name : String) (index : Nat) :
    Option (Option Bool) :=
  match ns.l_find_index col_name, ns.r_find_index col_name with
  | some (li, lv), some (ri, _) =>
    if li = ri then some lv else (ns[index]?).map (fun r => r.value)
  | _, _ => (ns[index]?).map (fun r => r.value)

/-- `Nullable::nullable_index`: direct positional lookup; Rust panics out of
bounds (outer `none`). -/
def Nullable.nullable_index (ns : Nullable) (index : Nat) : Option (Option Bool) :=
  (ns[index]?).map (fun r => r.value)

/-- `Nullable::to_result`: fold all entries into the last one with
`NullableResult::combine`; `none` when empty. -/
def Nullable.to_result (ns : Nullable) : Option NullableResult :=
  match ns.getLast? with
  | none => none
  | some result =>
    some (ns.dropLast.foldl
      (fun acc other => { acc with value := combineValues acc.value other.value }) result)

/-- `Nullable::to_table`: turn a projection into a synthetic table; unknown
values default to nullable. -/
def Nullable.to_table (ns : Nullable) (table_name : Option (List Ident)) : Table :=
  ns.foldl (fun t row => t.push_column2 row.column_name (row.value.getD true))
    (Table.new table_name)

/-- `StatementNullable` from `nullable.rs`: the arms of a statement (one
`Nullable` per UNION/INTERSECT/EXCEPT arm or VALUES row). -/
abbrev StatementNullable := List Nullable

/-- `StatementNullable::get_nullable`: pop the last arm as the accumulator and
fold the remaining arms (front to back) into it positionwise with
`combineValues`.  The Rust indexes `inferred_nullable[i]`, panicking when a
remaining arm is longer than the popped one (outer `none`). -/
def StatementNullable.get_nullable (sn : StatementNullable) : Option (List (Option Bool)) :=
  match sn.getLast? with
  | none => some []
  | some last =>
    sn.dropLast.foldlM
      (fun inferred row =>
        row.enum.foldlM
          (fun (inf : List (Option Bool)) p =>
            match inf[p.1]? with
            | none => none
            | some cur => some (inf.set p.1 (combineValues cur p.2.value)))
          inferred)
      (last.map (fun r => r.value))

/-- One position of `StatementNullable::flatten`'s inner loop: combine the
values, then store the result only when the accumulator entry is named or the
other arm's entry is named (taking over that name); when both are unnamed the
combined value is computed and dropped, leaving the accumulator entry
unchanged.  Rust indexes `first.0[i]` (panic = `none`). -/
def StatementNullable.flattenStep (first : Nullable) (i : Nat) (col : NullableResult) :
    Option Nullable :=
  match first[i]? with
  | none => none
  | some cur =>
    let value := combineValues cur.value col.value
    if cur.column_name.isSome then
      some (first.set i { column_name := cur.column_name, value := value })
    else if col.column_name.isSome then
      some (first.set i { column_name := col.column_name, value := value })
    else
      some first

/-- `StatementNullable::flatten`: pop the last arm, fold the remaining arms
into it with `flattenStep` at each position. -/
def StatementNullable.flatten (sn : StatementNullable) : Option Nullable :=
  match sn.getLast? with
  | none => some []
  | some first =>
    sn.dropLast.foldlM
      (fun acc row =>
        row.enum.foldlM (fun acc p => StatementNullable.flattenStep acc p.1 p.2) acc)
      first

/-- The `for (index, col) in cols.iter().enumerate()` loop of
`StatementNullable::get_nullable_final`: push each answer, defaulting unknown
to nullable; a panic inside `Nullable::nullable` aborts the loop (`none`). -/
def collectFinal (ns : Nullable) : List (Nat × String) → Option (List Bool)
  | [] => some []
  | p :: rest =>
    match ns.nullable p.2 p.1 with
    | none => none
    | some v => (collectFinal ns rest).map (fun vs => v.getD true :: vs)

/-- `StatementNullable::get_nullable_final`: flatten, then answer each
requested column by `Nullable::nullable` at its position. -/
def StatementNullable.get_nullable_final (sn : StatementNullable) (cols : List String) :
    Option (List Bool) :=
  match sn.flatten with
  | none => none
  | some ns => collectFinal ns cols.enum

/-- `Context` from `context.rs`. -/
structure Context where
  tables : Tables
  source : Source
  wal : Wal
  flavour : SqlFlavour
deriving Repr, DecidableEq

/-- `Context::push`: textually the same body as `Tables::push`, acting on the
context's `tables`. -/
def Context.push (ctx : Context) (t : Table) : Context :=
  if ctx.tables.any (fun cur => cur.equals t) then ctx
  else
    let t := { t with
      table_id := ctx.tables.length,
      columns := t.columns.map (fun c => { c with table_id := ctx.tables.length }) }
    { ctx with tables := ctx.tables ++ [t] }

/-- `Context::nullable_for_table`: most recent per-table WAL entry for this
table id. -/
def Context.nullable_for_table (ctx : Context) (table : Table) : Option Bool :=
  ctx.wal.reverse.findSome? (fun e =>
    match e with
    | WalEntry.tableNullable t n => if t = table.table_id then some n else none
    | _ => none)

/-- `Context::nullable_for_table_col`: a per-(table, column) WAL entry always
wins; otherwise a per-table WAL entry is returned only when it records
nullable (`true`); otherwise the catalog baseline. -/
def Context.nullable_for_table_col (ctx : Context) (table : Table) (col : TableColumn) :
    NullableResult :=
  match ctx.wal.nullable_for_col table col.column_id with
  | some wal_nullable => { column_name := col.column_name, value := some wal_nullable }
  | none =>
    match ctx.nullable_for_table table with
    | some wal_nullable =>
      if wal_nullable then
        { column_name := col.column_name, value := some wal_nullable }
      else
        { column_name := col.column_name, value := some col.catalog_nullable }
    | none => { column_name := col.column_name, value := some col.catalog_nullable }

/-- `Context::find_col_by_idents` (same three phases as
`Tables::find_col_by_idents`, reading the context's tables). -/
def Context.find_col_by_idents (ctx : Context) (name : List Ident) :
    Option (TableColumn × Table) :=
  ctx.tables.find_col_by_idents name

/-- `Context::nullable_for_ident`. -/
def Context.nullable_for_ident (ctx : Context) (name : List Ident) :
    Option NullableResult :=
  (ctx.find_col_by_idents name).map (fun p => ctx.nullable_for_table_col p.2 p.1)

/-- `Context::find_table_by_idents_table`. -/
def Context.find_table_by_idents_table (ctx : Context) (name : List Ident) : Option Table :=
  ctx.tables.find? (fun t => decide (t.table_name = some name))

/-- `Context::nullable_for_param` (`params.rs`): Postgres parses the digits of
a `$N` placeholder and indexes the supplied vector at `N - 1` (`N = 0`
underflows the unsigned subtraction: modelled as the panic `none`); SQLite
reads the running counter and increments it. -/
def Context.nullable_for_param (ctx : Context) (param : String) :
    Option (Option Bool × Context) :=
  match ctx.flavour with
  | SqlFlavour.postgres =>
    match (param.drop 1).toNat? with
    | none => none
    | some index =>
      if index = 0 then none
      else some (ctx.source.params[index - 1]?, ctx)
  | SqlFlavour.sqlite =>
    let src := { ctx.source with next_param_index := ctx.source.next_param_index + 1 }
    some (ctx.source.params[ctx.source.next_param_index]?, { ctx with source := src })

/-!
The `sqlparser` AST fragment.  The engine consumes `sqlparser::ast` values;
the fragment below covers the constructors exercised by the analysed queries
(and by the claims' quantifications).  Arms of the Rust `match`es that hit
`unimplemented!` for constructors outside this fragment simply have no
counterpart here; arms that ignore their payload (for example
`Expr::Tuple(_)`) keep the payload so the shape of the source type is
preserved.
-/

/-- `sqlparser::ast::Value` fragment: `Null`, `Placeholder`, and `number` as
the representative of the catch-all `_ => not-null` literal arm of
`visit_expr`. -/
inductive Value where
  | null
  | placeholder (s : String)
  | number (s : String)
deriving Repr, DecidableEq

/-- `sqlparser::ast::BinaryOperator` fragment.  `visit_expr` ignores the
operator entirely and `get_nullable_col` only distinguishes `And`, so this
fragment is representative. -/
inductive BinaryOperator where
  | eq
  | notEq
  | lt
  | gt
  | plus
  | and
  | or
deriving Repr, DecidableEq

/-- `sqlparser::ast::Expr` fragment. -/
inductive Expr where
  | compoundIdentifier (idents : List Ident)
  | identifier (ident : Ident)
  | value (v : Value)
  | binaryOp (left : Expr) (op : BinaryOperator) (right : Expr)
  | nested (e : Expr)
  | tuple (exprs : List Expr)
  | isNotNull (e : Expr)
  | isNull (e : Expr)
deriving Repr

/-- `sqlparser::ast::TableAlias` (column aliases unused by the claims). -/
structure TableAlias where
  name : Ident
deriving Repr, DecidableEq

/-- `sqlparser::ast::TableFactor` fragment: plain table references.
(`Derived` subqueries and `UNNEST` are outside the fragment; the engine's
other arms are `unimplemented!`.) -/
inductive TableFactor where
  | table (name : List Ident) (aliasName : Option TableAlias)
deriving Repr, DecidableEq

/-- `sqlparser::ast::JoinConstraint`. -/
inductive JoinConstraint where
  | onC (e : Expr)
  | usingC (name : List Ident)
  | naturalC
  | noneC
deriving Repr

/-- `sqlparser::ast::JoinOperator` fragment (the arms handled by
`Context::update_from_join`). -/
inductive JoinOperator where
  | leftOuter (c : JoinConstraint)
  | inner (c : JoinConstraint)
  | rightOuter (c : JoinConstraint)
  | fullOuter (c : JoinConstraint)
  | crossJoin
deriving Repr

/-- `sqlparser::ast::Join`. -/
structure Join where
  relation : TableFactor
  join_operator : JoinOperator
deriving Repr

/-- `sqlparser::ast::TableWithJoins`. -/
structure TableWithJoins where
  relation : TableFactor
  joins : List Join
deriving Repr

/-- `sqlparser::ast::SelectItem`. -/
inductive SelectItem where
  | unnamedExpr (e : Expr)
  | exprWithAlias (e : Expr) (aliasName : Ident)
  | wildcard
  | qualifiedWildcard (name : List Ident)
deriving Repr

/-- `sqlparser::ast::Select` fragment: the fields read by the engine
(projection, FROM, WHERE selection). -/
structure Select where
  projection : List SelectItem
  fromClause : List TableWithJoins
  selection : Option Expr
deriving Repr

/-- `sqlparser::ast::SetExpr` fragment: plain selects and set operations.
`SetExpr::SetOperation` also carries the operator and quantifier, which
`SetExpr::nullable_for` ignores (`SetOperation { left, right, .. }`). -/
inductive SetExpr where
  | selectE (s : Select)
  | setOperation (left : SetExpr) (right : SetExpr)
deriving Repr

/-- `JoinResolver` from `join_resolver.rs`: a rooted tree of table ids, each
node carrying an inferred nullability (the Rust struct pairs a `JoinEntry`
with a `leafs` vector). -/
inductive JoinResolver where
  | node (table_id : Nat) (nullable : Option Bool) (leafs : List JoinResolver)
deriving Repr

/-- `JoinResolver::from_base`: a root node, not-null, with no leaves. -/
def JoinResolver.from_base (table_id : Nat) : JoinResolver :=
  JoinResolver.node table_id (some false) []

mutual

/-- `JoinResolver::add_leaf`: no-op when `base = leaf_id`; push a new leaf
under the node whose id is `base`; otherwise recurse into every leaf. -/
def JoinResolver.add_leaf (r : JoinResolver) (base leaf_id : Nat)
    (leaf_nullable : Option Bool) : JoinResolver :=
  match r with
  | JoinResolver.node tid nb leafs =>
    if base = leaf_id then JoinResolver.node tid nb leafs
    else if tid = base then
      JoinResolver.node tid nb (leafs ++ [JoinResolver.node leaf_id leaf_nullable []])
    else
      JoinResolver.node tid nb (addLeafList leafs base leaf_id leaf_nullable)

/-- The `for leaf in &mut self.leafs` loop of `add_leaf`. -/
def addLeafList (l : List JoinResolver) (base leaf_id : Nat) (leaf_nullable : Option Bool) :
    List JoinResolver :=
  match l with
  | [] => []
  | r :: rs => r.add_leaf base leaf_id leaf_nullable :: addLeafList rs base leaf_id leaf_nullable

end

mutual

/-- `JoinResolver::recursive_set_nullable`: on the matching node, store the
value — except that at depth 1 (the root) a `none` value is ignored; no
recursion below a matching node. -/
def JoinResolver.recursive_set_nullable (r : JoinResolver) (table_id : Nat)
    (nullable : Option Bool) (depth : Nat) : JoinResolver :=
  match r with
  | JoinResolver.node tid nb leafs =>
    if tid = table_id then
      if depth = 1 ∧ nullable.isSome then JoinResolver.node tid nullable leafs
      else if depth ≠ 1 then JoinResolver.node tid nullable leafs
      else JoinResolver.node tid nb leafs
    else JoinResolver.node tid nb (recSetNullableList leafs table_id nullable (depth + 1))

/-- The `for leaf in &mut self.leafs` loop of `recursive_set_nullable`. -/
def recSetNullableList (l : List JoinResolver) (table_id : Nat) (nullable : Option Bool)
    (depth : Nat) : List JoinResolver :=
  match l with
  | [] => []
  | r :: rs =>
    r.recursive_set_nullable table_id nullable depth ::
      recSetNullableList rs table_id nullable depth

end

/-- `JoinResolver::set_nullable`: `recursive_set_nullable` starting at
depth 1. -/
def JoinResolver.set_nullable (r : JoinResolver) (table_id : Nat) (nullable : Option Bool) :
    JoinResolver :=
  r.recursive_set_nullable table_id nullable 1

/-- `JoinResolver::set_nullable_if_base`: update only when the root matches. -/
def JoinResolver.set_nullable_if_base (r : JoinResolver) (table_id : Nat) (nullable : Bool) :
    JoinResolver :=
  match r with
  | JoinResolver.node tid nb leafs =>
    if tid = table_id then JoinResolver.node tid (some nullable) leafs
    else JoinResolver.node tid nb leafs

/-- `JoinResolver::set_new_base`: re-root, the old tree becoming the single
leaf of a fresh not-null base. -/
def JoinResolver.set_new_base (r : JoinResolver) (base : Nat) : JoinResolver :=
  JoinResolver.node base (some false) [r]

mutual

/-- `JoinResolver::recursive_collapsing_set_nullable`: set the matching node
and propagate the value to every ancestor on the path back to the root
(returning whether the id was found). -/
def JoinResolver.recursive_collapsing_set_nullable (r : JoinResolver) (table_id : Nat)
    (nullable : Bool) : JoinResolver × Bool :=
  match r with
  | JoinResolver.node tid nb leafs =>
    if tid = table_id then (JoinResolver.node tid (some nullable) leafs, true)
    else
      match collapsingList leafs table_id nullable with
      | (leafs2, true) => (JoinResolver.node tid (some nullable) leafs2, true)
      | (leafs2, false) => (JoinResolver.node tid nb leafs2, false)

/-- The `for t in &mut self.leafs` loop of
`recursive_collapsing_set_nullable`: stops at the first leaf that found the
id. -/
def collapsingList (l : List JoinResolver) (table_id : Nat) (nullable : Bool) :
    List JoinResolver × Bool :=
  match l with
  | [] => ([], false)
  | r :: rs =>
    match r.recursive_collapsing_set_nullable table_id nullable with
    | (r2, true) => (r2 :: rs, true)
    | (r2, false) =>
      match collapsingList rs table_id nullable with
      | (rs2, found) => (r2 :: rs2, found)

end

/-- `JoinResolver::collapsing_set_nullable`. -/
def JoinResolver.collapsing_set_nullable (r : JoinResolver) (table_id : Nat)
    (nullable : Bool) : JoinResolver :=
  (r.recursive_collapsing_set_nullable table_id nullable).1

/-- `JoinResolver::null`: an inferred value wins, otherwise the parent's. -/
def JoinResolver.nullOf (parent_nullable : Bool) (nullable : Option Bool) : Bool :=
  match nullable with
  | some inferred => inferred
  | none => parent_nullable

mutual

/-- `JoinResolver::r_nullables`: emit this node's collapsed nullability and
recurse, each leaf inheriting the parent's collapsed value. -/
def JoinResolver.r_nullables (r : JoinResolver) (parent_nullable : Bool) :
    List (Nat × Bool) :=
  match r with
  | JoinResolver.node tid nb leafs =>
    let null := JoinResolver.nullOf parent_nullable nb
    (tid, null) :: rNullablesList leafs null

/-- The `for leaf in self.leafs` loop of `r_nullables`/`get_nullables`. -/
def rNullablesList (l : List JoinResolver) (parent_nullable : Bool) : List (Nat × Bool) :=
  match l with
  | [] => []
  | r :: rs => r.r_nullables parent_nullable ++ rNullablesList rs parent_nullable

end

/-- `JoinResolver::get_nullables`: collapse the tree into per-table
nullabilities.  The Rust unwraps the root's `nullable` (panic when `none`,
modelled as the outer `none`; every constructed root carries a value). -/
def JoinResolver.get_nullables (r : JoinResolver) : Option (List (Nat × Bool)) :=
  match r with
  | JoinResolver.node tid nb leafs =>
    match nb with
    | none => none
    | some rootNullable =>
      let null := JoinResolver.nullOf rootNullable nb
      some ((tid, null) :: rNullablesList leafs null)

/-- `visit_expr` from `expr.rs`, on the embedded fragment.  `&mut Context` is
threaded explicitly (a Postgres-flavour run never changes it; a SQLite run
advances the placeholder counter).  `anyhow` errors and the
`unimplemented!` fall-through are `none`. -/
def visit_expr (e : Expr) (aliasName : Option Ident) (ctx : Context) :
    Option (NullableResult × Context) :=
  match e with
  | Expr.compoundIdentifier idents =>
    (ctx.nullable_for_ident idents).map (fun r => (r.set_alias aliasName, ctx))
  | Expr.identifier col_name =>
    (ctx.nullable_for_ident [col_name]).map (fun r => (r.set_alias aliasName, ctx))
  | Expr.value v =>
    match v with
    | Value.null => some ((NullableResult.unnamed (some true)).set_alias aliasName, ctx)
    | Value.placeholder param =>
      (ctx.nullable_for_param param).map
        (fun p => ((NullableResult.unnamed p.1).set_alias aliasName, p.2))
    | Value.number _ => some ((NullableResult.unnamed (some false)).set_alias aliasName, ctx)
  | Expr.tuple _ => some ((NullableResult.unnamed (some false)).set_alias aliasName, ctx)
  | Expr.nested inner => visit_expr inner aliasName ctx
  | Expr.binaryOp left _ right =>
    match visit_expr left aliasName ctx with
    | none => none
    | some (left_nullable, ctx) =>
      match visit_expr right aliasName ctx with
      | none => none
      | some (right_nullable, ctx) =>
        if left_nullable.value = some false ∧ right_nullable.value = some false then
          some (NullableResult.unnamed (some false), ctx)
        else if left_nullable.value = some true ∨ right_nullable.value = some true then
          some (NullableResult.unnamed (some true), ctx)
        else
          some (NullableResult.unnamed none, ctx)
  | Expr.isNotNull _ => some ((NullableResult.unnamed (some false)).set_alias aliasName, ctx)
  | Expr.isNull _ => some ((NullableResult.unnamed (some false)).set_alias aliasName, ctx)

/-- `get_column` from `expr.rs`: `some (some col)` for a resolvable column
reference, `some none` for a non-identifier expression, `none` for the
propagated lookup error on an unresolvable identifier. -/
def get_column (e : Expr) (ctx : Context) : Option (Option TableColumn) :=
  match e with
  | Expr.compoundIdentifier idents =>
    (ctx.find_col_by_idents idents).map (fun p => some p.1)
  | Expr.identifier ident =>
    (ctx.find_col_by_idents [ident]).map (fun p => some p.1)
  | _ => some none

/-- The WAL/resolver update both `IS NOT NULL` and the binary-operation arms
of `get_nullable_col` perform for a tightened column: append a not-null
per-column entry and mark the column's table not-null in every resolver. -/
def tightenColumn (ctx : Context) (rs : List JoinResolver) (col : TableColumn) :
    Context × List JoinResolver :=
  ({ ctx with wal := ctx.wal.add_column col.table_id col.column_id false },
    rs.map (fun r => r.set_nullable col.table_id (some false)))

/-- `get_nullable_col` from `expr.rs` (the WHERE-clause walk).  For a binary
operation — whatever the operator — each side that is a bare column reference
is tightened when the opposite side's visit yields not-null; recursion into
the operands happens only when the operator is `And`.  Identifier, compound
identifier and literal leaves are no-ops; other expressions hit
`unimplemented!` (`none`). -/
def get_nullable_col (e : Expr) (ctx : Context) (rs : List JoinResolver) :
    Option (Context × List JoinResolver) :=
  match e with
  | Expr.isNotNull not_null =>
    match get_column not_null ctx with
    | none => none
    | some (some column) => some (tightenColumn ctx rs column)
    | some none => some (ctx, rs)
  | Expr.binaryOp left op right =>
    match get_column left ctx with
    | none => none
    | some leftColOpt =>
      match visit_expr right none ctx with
      | none => none
      | some (rightRes, ctx) =>
        let step1 : Context × List JoinResolver :=
          match leftColOpt, rightRes.value with
          | some left_col, some false => tightenColumn ctx rs left_col
          | _, _ => (ctx, rs)
        match get_column right step1.1 with
        | none => none
        | some rightColOpt =>
          match visit_expr left none step1.1 with
          | none => none
          | some (leftRes, ctx2) =>
            let step2 : Context × List JoinResolver :=
              match rightColOpt, leftRes.value with
              | some right_col, some false => tightenColumn ctx2 step1.2 right_col
              | _, _ => (ctx2, step1.2)
            if op ≠ BinaryOperator.and then some step2
            else
              match get_nullable_col left step2.1 step2.2 with
              | none => none
              | some (ctx3, rs3) => get_nullable_col right ctx3 rs3
  | Expr.compoundIdentifier _ => some (ctx, rs)
  | Expr.identifier _ => some (ctx, rs)
  | Expr.value _ => some (ctx, rs)
  | _ => none

/-- `Context::visit_table_factor`, `Table` arm: resolve the base table by its
original name, apply the alias, push into the active tables.  (The `Derived`
and `UNNEST` arms are outside the embedded fragment.) -/
def Context.visit_table_factor (ctx : Context) (factor : TableFactor) : Option Context :=
  match factor with
  | TableFactor.table name aliasName =>
    match ctx.source.find_by_original_name name with
    | none => none
    | some table =>
      some (ctx.push (table.add_alias (aliasName.map (fun a => a.name))))

/-- `Context::add_active_tables`: register the base relation and every joined
relation. -/
def Context.add_active_tables (ctx : Context) (table : TableWithJoins) : Option Context :=
  match ctx.visit_table_factor table.relation with
  | none => none
  | some ctx => table.joins.foldlM (fun c j => c.visit_table_factor j.relation) ctx

/-- `Context::find_table_by_table_factor`: an aliased factor is looked up by
its alias, an unaliased one by `table_name`. -/
def Context.find_table_by_table_factor (ctx : Context) (factor : TableFactor) :
    Option Table :=
  match factor with
  | TableFactor.table name aliasName =>
    match aliasName with
    | some a => ctx.tables.find? (fun t => decide (t.table_name = some [a.name]))
    | none => ctx.tables.find_table_by_idents_table name

/-- `Context::recursive_find_joined_tables`: collect the tables referenced by
compound identifiers in a join predicate.  The Rust accumulates into a
`HashSet<Table>` whose iteration order is unspecified; the embedding keeps
first-insertion order (the claims proved here do not depend on the order).
The unwrap on an unresolvable identifier and the `unimplemented!` arms are
`none`. -/
def Context.recursive_find_joined_tables (ctx : Context) (e : Expr) (acc : List Table) :
    Option (List Table) :=
  match e with
  | Expr.compoundIdentifier idents =>
    match ctx.tables.find_col_by_idents idents with
    | none => none
    | some (_, table) =>
      if acc.any (fun t => decide (t = table)) then some acc else some (acc ++ [table])
  | Expr.binaryOp left _ right =>
    match ctx.recursive_find_joined_tables left acc with
    | none => none
    | some acc => ctx.recursive_find_joined_tables right acc
  | Expr.value _ => some acc
  | _ => none

/-- `Context::handle_join_constraint`: resolve the joined-on table set and the
joined table's id, apply the per-operator callback.  The `Using`/`Natural`
arms add each joined table as a leaf before the callback runs; the `None` arm
panics in the source (`none`). -/
def Context.handle_join_constraint (ctx : Context) (resolver : JoinResolver)
    (constraint : JoinConstraint) (base_table left_joined : Table)
    (callback : Nat → List Nat → JoinResolver → JoinResolver) : Option JoinResolver :=
  match constraint with
  | JoinConstraint.onC e =>
    match ctx.recursive_find_joined_tables e [] with
    | none => none
    | some ts =>
      let right_tables := ts.map (fun t => t.table_id)
      match right_tables.find? (fun t => decide (t = left_joined.table_id)) with
      | none => none
      | some left_table => some (callback left_table right_tables resolver)
  | JoinConstraint.usingC col_name =>
    let right_tables := (ctx.tables.find_cols_by_idents col_name).map (fun p => p.2.table_id)
    match right_tables.find? (fun t => decide (t = left_joined.table_id)) with
    | none => none
    | some left_table =>
      let resolver := right_tables.foldl (fun r rt => r.add_leaf rt left_table none) resolver
      some (callback left_table right_tables resolver)
  | JoinConstraint.naturalC =>
    let right_tables := [base_table.table_id, left_joined.table_id]
    match right_tables.find? (fun t => decide (t = left_joined.table_id)) with
    | none => none
    | some left_table =>
      let resolver := right_tables.foldl (fun r rt => r.add_leaf rt left_table none) resolver
      some (callback left_table right_tables resolver)
  | JoinConstraint.noneC => none

/-- The `LeftOuter` callback of `Context::update_from_join`: each joined-on
table gains the joined table as leaf, and the joined table is marked
nullable. -/
def leftOuterCallback (left_table : Nat) (right_tables : List Nat) (r : JoinResolver) :
    JoinResolver :=
  let r := right_tables.foldl (fun r rt => r.add_leaf rt left_table none) r
  r.set_nullable left_table (some true)

/-- The `Inner` callback: add leaves, then force every other joined-on table
not-null when it is the resolver's base. -/
def innerCallback (left_table : Nat) (right_tables : List Nat) (r : JoinResolver) :
    JoinResolver :=
  let r := right_tables.foldl (fun r rt => r.add_leaf rt left_table none) r
  right_tables.foldl
    (fun r rt => if rt ≠ left_table then r.set_nullable_if_base rt false else r) r

/-- The `RightOuter` callback: re-root on the joined table, collapse the prior
subtree to nullable, mark the new base not-null. -/
def rightOuterCallback (left_table : Nat) (right_tables : List Nat) (r : JoinResolver) :
    JoinResolver :=
  let r := r.set_new_base left_table
  let r := right_tables.foldl
    (fun r rt => if rt ≠ left_table then r.collapsing_set_nullable rt true else r) r
  r.set_nullable left_table (some false)

/-- The `FullOuter` callback: add leaves and mark both sides nullable. -/
def fullOuterCallback (left_table : Nat) (right_tables : List Nat) (r : JoinResolver) :
    JoinResolver :=
  let r := right_tables.foldl (fun r rt => r.add_leaf rt left_table none) r
  let r := right_tables.foldl
    (fun r rt => if rt ≠ left_table then r.set_nullable rt (some true) else r) r
  r.set_nullable left_table (some true)

/-- One join of `Context::update_from_join`'s inner loop. -/
def Context.update_one_join (ctx : Context) (base_table : Table) (resolver : JoinResolver)
    (join : Join) : Option JoinResolver :=
  match ctx.find_table_by_table_factor join.relation with
  | none => none
  | some left_table =>
    match join.join_operator with
    | JoinOperator.leftOuter inner =>
      ctx.handle_join_constraint resolver inner base_table left_table leftOuterCallback
    | JoinOperator.inner inner =>
      ctx.handle_join_constraint resolver inner base_table left_table innerCallback
    | JoinOperator.rightOuter inner =>
      ctx.handle_join_constraint resolver inner base_table left_table rightOuterCallback
    | JoinOperator.fullOuter inner =>
      ctx.handle_join_constraint resolver inner base_table left_table fullOuterCallback
    | JoinOperator.crossJoin =>
      let r := resolver.add_leaf base_table.table_id left_table.table_id none
      some (r.set_nullable_if_base base_table.table_id false)

/-- `Context::update_from_join`: one resolver per FROM entry that has joins,
rooted at the entry's base table. -/
def Context.update_from_join (ctx : Context) (select : Select) :
    Option (List JoinResolver) :=
  select.fromClause.foldlM
    (fun resolvers table =>
      if table.joins.isEmpty then some resolvers
      else
        match ctx.find_table_by_table_factor table.relation with
        | none => none
        | some base_table =>
          match table.joins.foldlM
              (fun r j => ctx.update_one_join base_table r j)
              (JoinResolver.from_base base_table.table_id) with
          | none => none
          | some resolver => some (resolvers ++ [resolver]))
    []

/-- `Context::update_from_where` (`where_.rs`): walk the WHERE predicate when
present. -/
def Context.update_from_where (ctx : Context) (select : Select)
    (rs : List JoinResolver) : Option (Context × List JoinResolver) :=
  match select.selection with
  | none => some (ctx, rs)
  | some selection => get_nullable_col selection ctx rs

/-- `visit_select_item` from `select_item.rs`. -/
def visit_select_item (item : SelectItem) (ctx : Context) :
    Option (List NullableResult × Context) :=
  match item with
  | SelectItem.unnamedExpr e =>
    (visit_expr e none ctx).map (fun p => ([p.1], p.2))
  | SelectItem.exprWithAlias e aliasName =>
    (visit_expr e (some aliasName) ctx).map (fun p => ([p.1], p.2))
  | SelectItem.wildcard =>
    some (ctx.tables.flatMap
      (fun table => table.columns.map (fun col => ctx.nullable_for_table_col table col)),
      ctx)
  | SelectItem.qualifiedWildcard table_name =>
    match ctx.find_table_by_idents_table table_name with
    | none => none
    | some table =>
      some (table.columns.map (fun col => ctx.nullable_for_table_col table col), ctx)

/-- `Select::nullable_for` (`select.rs`): register the active tables, build
the join resolvers, refine from WHERE, collapse each resolver into per-table
WAL entries, then visit the projection. -/
def Select.nullable_for (ctx : Context) (select : Select) :
    Option (StatementNullable × Context) :=
  match select.fromClause.foldlM (fun c t => c.add_active_tables t) ctx with
  | none => none
  | some ctx =>
    match ctx.update_from_join select with
    | none => none
    | some resolvers =>
      match ctx.update_from_where select resolvers with
      | none => none
      | some (ctx, resolvers) =>
        match resolvers.foldlM
            (fun (c : Context) r =>
              (r.get_nullables).map (fun ns =>
                ns.foldl (fun c2 p => { c2 with wal := c2.wal.add_table p.1 p.2 }) c))
            ctx with
        | none => none
        | some ctx =>
          match select.projection.foldlM
              (fun (acc : List NullableResult × Context) item =>
                (visit_select_item item acc.2).map (fun p => (acc.1 ++ p.1, p.2)))
              ([], ctx) with
          | none => none
          | some (results, ctx) => some ([results], ctx)

/-- `SetExpr::nullable_for` (`set_expr.rs`): a plain select analyses directly;
a set operation analyses the right arm first, then the left, and concatenates
the arms (`StatementNullable::combine`). -/
def SetExpr.nullable_for (ctx : Context) : SetExpr → Option (StatementNullable × Context)
  | SetExpr.selectE s => Select.nullable_for ctx s
  | SetExpr.setOperation left right =>
    match SetExpr.nullable_for ctx right with
    | none => none
    | some (rightN, ctx) =>
      match SetExpr.nullable_for ctx left with
      | none => none
      | some (leftN, ctx) => some (rightN ++ leftN, ctx)

/-- `NullableState::get_nullable` (`state/mod.rs`) composed with the
`Statement::Query` dispatch of `statement.rs` and `query.rs`: a fresh context
over the source, analyse the (externally parsed) query body, then assemble
the requested columns.  None of the analysed queries carries a WITH clause. -/
def NullableState.get_nullable (source : Source) (flavour : SqlFlavour) (body : SetExpr)
    (cols : List String) : Option (List Bool) :=
  let ctx : Context := { tables := [], source := source, wal := [], flavour := flavour }
  match SetExpr.nullable_for ctx body with
  | none => none
  | some (inferred, _) => inferred.get_nullable_final cols

end SqlxNullable

namespace SqlxPostgres

/-!
Models of `sqlx-postgres/src/connection/stmt_cache.rs`, the worker backlog
(`connection/worker/mod.rs` and `connection/worker/message.rs`) and
`transaction.rs`.
-/

/-- `StatementStatus` from `stmt_cache.rs`.  The statement id is a `Nat`;
the `Arc<PgStatementMetadata>` payload plays no role in the control flow and
is elided; the `Arc<ManualResetEvent>` is identified by a `Nat` token. -/
inductive StatementStatus where
  | cached (statement_id : Nat)
  | inflight (semaphore : Nat)
deriving Repr, DecidableEq

/-- Modelled from the spec: `StatementCache` lives in `sqlx-core`'s `common`
module, which is not part of the provided sources.  The spec describes it as
an LRU keyed by SQL text; what `SharedStatementCache::get` and
`checked_insert` use of it is keyed lookup (`get_mut`), keyed replacement or
insertion returning the previous value (`insert`), and the enabled flag
(capacity > 0).  It is modelled as an association list; LRU reordering and
eviction do not affect the claims proved here. -/
structure StatementCache where
  entries : List (String × StatementStatus)
deriving Repr, DecidableEq

/-- Keyed lookup (`StatementCache::get_mut`, modelled from the spec). -/
def StatementCache.get_mut (c : StatementCache) (sql : String) : Option StatementStatus :=
  (c.entries.find? (fun p => decide (p.1 = sql))).map (fun p => p.2)

/-- Keyed insert returning the replaced value (`StatementCache::insert`,
modelled from the spec).  An LRU keeps the freshly inserted key most recent;
the model keeps it at the front of the association list. -/
def StatementCache.insertEntry (c : StatementCache) (sql : String) (st : StatementStatus) :
    Option StatementStatus × StatementCache :=
  ((c.entries.find? (fun p => decide (p.1 = sql))).map (fun p => p.2),
    { entries := (sql, st) :: c.entries.filter (fun p => !decide (p.1 = sql)) })

/-- The result of one locked block of `SharedStatementCache::get`:
a cached hit, an in-flight entry to wait on, or a miss that installed a fresh
in-flight marker. -/
inductive CacheStepResult where
  | hit (statement_id : Nat)
  | waitOn (semaphore : Nat)
  | missInstalled
deriving Repr, DecidableEq

/-- One iteration of `SharedStatementCache::get`'s loop body (the critical
section under `self.lock()`): an `InFlight` entry is returned to be awaited,
a `Cached` entry is a hit, and an absent entry atomically becomes a fresh
`InFlight` marker while `get` returns `None` (a miss). -/
def SharedStatementCache.getStep (c : StatementCache) (sql : String) (freshSem : Nat) :
    CacheStepResult × StatementCache :=
  match c.get_mut sql with
  | some (StatementStatus.inflight s) => (CacheStepResult.waitOn s, c)
  | some (StatementStatus.cached id) => (CacheStepResult.hit id, c)
  | none =>
    (CacheStepResult.missInstalled,
      (c.insertEntry sql (StatementStatus.inflight freshSem)).2)

/-- `SharedStatementCache::get`: the Rust runs the locked block up to twice
(`for _ in 0..2`), awaiting the in-flight semaphore (with a timeout) between
the iterations; after the second `InFlight` observation the loop ends and the
function returns `None` without touching the cache.  Concurrent mutation of
the cache while the caller is suspended on the semaphore is modelled by the
`interference` function.  Returns the Rust return value (`some id` hit /
`none` miss-or-give-up) and the final cache state. -/
def SharedStatementCache.get (c : StatementCache) (sql : String) (freshSem : Nat)
    (interference : StatementCache → StatementCache) : Option Nat × StatementCache :=
  match SharedStatementCache.getStep c sql freshSem with
  | (CacheStepResult.hit id, c1) => (some id, c1)
  | (CacheStepResult.missInstalled, c1) => (none, c1)
  | (CacheStepResult.waitOn _, c1) =>
    let c2 := interference c1
    match SharedStatementCache.getStep c2 sql freshSem with
    | (CacheStepResult.hit id, c3) => (some id, c3)
    | (CacheStepResult.missInstalled, c3) => (none, c3)
    | (CacheStepResult.waitOn _, c3) => (none, c3)

/-- `BackendMessageFormat` fragment (`message/mod.rs` of the protocol layer):
the formats `IoRequest::handle_done` distinguishes plus representatives of
the rest. -/
inductive BackendMessageFormat where
  | readyForQuery
  | copyInResponse
  | commandComplete
  | dataRow
  | closeComplete
deriving Repr, DecidableEq

/-- `PipeUntil` from `connection/worker/message.rs`: the termination
predicate of a request's response stream.  Its variants are `NumResponses`,
`ReadyForQuery` and `RfqOr` — there is no `None` variant. -/
inductive PipeUntil where
  | numResponses (n : Nat)
  | readyForQuery
  | rfqOr (wanted : BackendMessageFormat)
deriving Repr, DecidableEq

/-- The backlog guard of `Worker::poll_receiver`
(`connection/worker/mod.rs`): `!matches!(msg.pipe_until, PipeUntil::None)`.
The `PipeUntil` enum defined in `worker/message.rs` has no `None` variant, so
no request value matches the pattern and the guard lets every request
through. -/
def PipeUntil.matches_none_variant : PipeUntil → Bool :=
  fun _ => false

/-- `Worker::poll_receiver`'s backlog decision: a request is pushed onto the
backlog unless its predicate matches the (nonexistent) `None` variant. -/
def Worker.pushes_to_backlog (p : PipeUntil) : Bool :=
  !p.matches_none_variant

/-- `IoRequest::handle_done` (`connection/worker/message.rs`): counting one
frame against the front request.  `NumResponses` decrements its counter —
`*num -= 1` on a `usize`, which underflows (panics) when the counter is
already 0 (modelled as `none`); the other predicates test the frame format.
Returns whether the request is done together with the updated predicate. -/
def IoRequest.handle_done : PipeUntil → BackendMessageFormat → Option (Bool × PipeUntil)
  | PipeUntil.numResponses 0, _ => none
  | PipeUntil.numResponses (n + 1), _ =>
    some (decide (n = 0), PipeUntil.numResponses n)
  | PipeUntil.readyForQuery, format =>
    some (decide (format = BackendMessageFormat.readyForQuery), PipeUntil.readyForQuery)
  | PipeUntil.rfqOr wanted, format =>
    some (decide (wanted = format ∨ format = BackendMessageFormat.readyForQuery),
      PipeUntil.rfqOr wanted)

/-- The predicate `PgConnection::clear_cached_statements`
(`connection/mod.rs`) hands to `start_pipe` when no statement had to be
closed: `PipeUntil::NumResponses(0)`, a request expecting zero responses. -/
def clearCachedStatementsEmptyPredicate : PipeUntil :=
  PipeUntil.numResponses 0

/-- `TransactionStatus` from the protocol layer (`ReadyForQuery`'s status
byte). -/
inductive TransactionStatus where
  | idle
  | transaction
  | error
deriving Repr, DecidableEq

/-- The connection state `PgTransactionManager::begin` touches: the nesting
depth and transaction status held in `PgSharedInner`, plus the SQL texts
queued to the worker (each `queue_simple_query` appends one `Query`
message). -/
structure PgConn where
  transaction_depth : Nat
  transaction_status : TransactionStatus
  queued : List String
deriving Repr, DecidableEq

/-- The error kinds `begin` can surface. -/
inductive PgError where
  | invalidSavePointStatement
  | beginFailed
  | databaseOrIo
deriving Repr, DecidableEq

/-- Outcome of the `wait_ready_for_query` round-trip: an error while waiting
(database error, protocol error or worker crash), or a `ReadyForQuery` frame
carrying the server's transaction status. -/
inductive RoundTrip where
  | failed
  | readyForQuery (status : TransactionStatus)
deriving Repr, DecidableEq

/-- Modelled from the spec: `begin_ansi_transaction_sql` lives in
`sqlx-core`'s transaction module (not under the provided sources); the spec
says depth 0 issues `BEGIN` and nesting issues a `SAVEPOINT`.  The claims
proved here do not depend on the text. -/
def begin_ansi_transaction_sql (depth : Nat) : String :=
  if depth = 0 then "BEGIN" else "SAVEPOINT _sqlx_savepoint_" ++ toString depth

/-- Modelled from the spec: `rollback_ansi_transaction_sql` from `sqlx-core`;
depth 1 issues `ROLLBACK`, deeper issues a rollback to the savepoint. -/
def rollback_ansi_transaction_sql (depth : Nat) : String :=
  if depth = 1 then "ROLLBACK" else "ROLLBACK TO SAVEPOINT _sqlx_savepoint_" ++ toString (depth - 1)

/-- `PgConnection::queue_simple_query`: append one `Query` message for the
worker. -/
def PgConn.queue_simple_query (c : PgConn) (sql : String) : PgConn :=
  { c with queued := c.queued ++ [sql] }

/-- `PgTransactionManager::start_rollback`: when the depth is positive, queue
the rollback statement and decrement the depth; otherwise do nothing. -/
def PgConn.start_rollback (c : PgConn) : PgConn :=
  if 0 < c.transaction_depth then
    { c with
      queued := c.queued ++ [rollback_ansi_transaction_sql c.transaction_depth],
      transaction_depth := c.transaction_depth - 1 }
  else c

/-- `PgConnection::in_transaction`: the shared status is `Transaction`. -/
def PgConn.in_transaction (c : PgConn) : Bool :=
  decide (c.transaction_status = TransactionStatus.transaction)

/-- The part of `begin` after the statement is chosen: queue, round-trip,
check, increment. -/
def PgTransactionManager.beginRoundTrip (conn : PgConn) (sql : String)
    (outcome : RoundTrip) : Except PgError Unit × PgConn :=
  let c1 := conn.queue_simple_query sql
  match outcome with
  | RoundTrip.failed => (Except.error PgError.databaseOrIo, c1.start_rollback)
  | RoundTrip.readyForQuery status =>
    let c2 := { c1 with transaction_status := status }
    if c2.in_transaction then
      (Except.ok (), { c2 with transaction_depth := c2.transaction_depth + 1 })
    else (Except.error PgError.beginFailed, c2.start_rollback)

/-- `PgTransactionManager::begin` (`transaction.rs`): reject a custom `BEGIN`
when already in a transaction, before queueing anything; otherwise queue the
statement, wait for `ReadyForQuery` (which stores the reported transaction
status into the connection), fail with `BeginFailed` when the connection does
not report being in a transaction, and only then increment the depth.  The
armed `Rollback` drop guard runs `start_rollback` on every error path after
queueing.  Worker-crash failures of the queueing itself are outside the
model. -/
def PgTransactionManager.begin (conn : PgConn) (statement : Option String)
    (outcome : RoundTrip) : Except PgError Unit × PgConn :=
  let depth := conn.transaction_depth
  match statement with
  | some s =>
    if 0 < depth then (Except.error PgError.invalidSavePointStatement, conn)
    else PgTransactionManager.beginRoundTrip conn s outcome
  | none => PgTransactionManager.beginRoundTrip conn (begin_ansi_transaction_sql depth) outcome

end SqlxPostgres

open SqlxNullable SqlxPostgres

/-!  Concrete inputs used by the theorems below. -/

/-- The `users` table of the spec's scenario 1:
`users(id not-null, username not-null, emailadres null, pet_id not-null)`. -/
def usersTable : Table :=
  ((((Table.new (some ["users"])).push_column "id" false).push_column "username"
      false).push_column "emailadres" true).push_column "pet_id" false

/-- The `pets` table of the spec's scenario 1:
`pets(pet_id not-null, pet_name not-null)`. -/
def petsTable : Table :=
  ((Table.new (some ["pets"])).push_column "pet_id" false).push_column "pet_name" false

/-- The catalog snapshot for scenario 1. -/
def scenario1Source : Source := Source.new [usersTable, petsTable]

/-- The parsed ON predicate `pets.pet_id = u.pet_id`. -/
def scenario1OnExpr : Expr :=
  Expr.binaryOp (Expr.compoundIdentifier ["pets", "pet_id"]) BinaryOperator.eq
    (Expr.compoundIdentifier ["u", "pet_id"])

/-- The parsed query of scenario 1: `SELECT u.id, u.username, u.emailadres,
pets.pet_id, pets.pet_name FROM users u LEFT JOIN pets ON pets.pet_id =
u.pet_id`. -/
def scenario1Select : Select :=
  { projection := [
      SelectItem.unnamedExpr (Expr.compoundIdentifier ["u", "id"]),
      SelectItem.unnamedExpr (Expr.compoundIdentifier ["u", "username"]),
      SelectItem.unnamedExpr (Expr.compoundIdentifier ["u", "emailadres"]),
      SelectItem.unnamedExpr (Expr.compoundIdentifier ["pets", "pet_id"]),
      SelectItem.unnamedExpr (Expr.compoundIdentifier ["pets", "pet_name"])],
    fromClause := [
      { relation := TableFactor.table ["users"] (some { name := "u" }),
        joins := [
          { relation := TableFactor.table ["pets"] none,
            join_operator :=
              JoinOperator.leftOuter (JoinConstraint.onC scenario1OnExpr) }] }],
    selection := none }

/-- A `users` table with a catalog-nullable `age` column (the shape of the
repository's own `tests/where.rs` fixtures). -/
def usersAgeTable : Table :=
  ((((Table.new (some ["users"])).push_column "user_id" false).push_column "name"
      false).push_column "emailadres" true).push_column "age" true

/-- The `age` column of `usersAgeTable` as stored after `Tables::push` into an
empty collection (table id 0, column id 3, catalog-nullable). -/
def ageColumn : TableColumn :=
  { column_name := some "age", catalog_nullable := true, column_id := 3, table_id := 0 }

/-- A context whose WAL holds exactly one entry: a per-table *not-null* fact
for table 0 — the most recent (indeed only) applicable WAL fact for
`ageColumn`. -/
def tableNotNullCtx : Context :=
  { tables := Tables.push [] usersAgeTable, source := Source.new [usersAgeTable],
    wal := [WalEntry.tableNullable 0 false], flavour := SqlFlavour.postgres }

/-- A context with the `users` table active and an empty WAL (the state of the
WHERE walk for `SELECT .. FROM users WHERE age < 15`). -/
def whereWalkCtx : Context :=
  { tables := Tables.push [] usersAgeTable, source := Source.new [usersAgeTable],
    wal := [], flavour := SqlFlavour.postgres }

/-- The parsed predicate `age < 15`: a binary operation whose operator is `<`,
not `=`. -/
def ageLtFifteen : Expr :=
  Expr.binaryOp (Expr.identifier "age") BinaryOperator.lt (Expr.value (Value.number "15"))

/-- `SELECT 1` (one unnamed, non-null projection entry). -/
def selectOne : Select :=
  { projection := [SelectItem.unnamedExpr (Expr.value (Value.number "1"))],
    fromClause := [], selection := none }

/-- `SELECT NULL` (one unnamed, nullable projection entry). -/
def selectNull : Select :=
  { projection := [SelectItem.unnamedExpr (Expr.value Value.null)],
    fromClause := [], selection := none }

/-- The parsed set operation `SELECT 1 UNION SELECT NULL` (both arms have
projection arity 1). -/
def unionOneNull : SetExpr :=
  SetExpr.setOperation (SetExpr.selectE selectOne) (SetExpr.selectE selectNull)

/-- The invariant claimed for `Tables::push`: pairwise-distinct `table_name`s,
and every stored table's id (and each of its columns' table id) equals its
index. -/
def TablesInvariant (ts : Tables) : Prop :=
  ts.Pairwise (fun a b => a.table_name ≠ b.table_name) ∧
    ∀ i, (h : i < ts.length) →
      (ts.get ⟨i, h⟩).table_id = i ∧ ∀ c ∈ (ts.get ⟨i, h⟩).columns, c.table_id = i

/-- A context over an empty catalog. -/
def emptyCtx : Context :=
  { tables := [], source := Source.new [], wal := [], flavour := SqlFlavour.postgres }

/-- A statement cache holding one pre-existing in-flight entry (with semaphore
token 7) for the SQL text "q". -/
def inflightCache : StatementCache :=
  { entries := [("q", StatementStatus.inflight 7)] }

/-- An empty statement cache. -/
def emptyStmtCache : StatementCache := { entries := [] }

/-- A connection that is idle at depth 0 with nothing queued. -/
def idleConn : PgConn :=
  { transaction_depth := 0, transaction_status := TransactionStatus.idle, queued := [] }

/-- A connection already inside one transaction. -/
def inTxnConn : PgConn :=
  { transaction_depth := 1, transaction_status := TransactionStatus.transaction,
    queued := [] }

/-!  Claim theorems. -/

/-- Claim C1: for the schema `users(id not-null, username not-null,
emailadres null, pet_id not-null)`, `pets(pet_id not-null, pet_name
not-null)`, running the nullability analyzer (Postgres flavour) on
`SELECT u.id, u.username, u.emailadres, pets.pet_id, pets.pet_name FROM users
u LEFT JOIN pets ON pets.pet_id = u.pet_id` with requested output columns
`[id, username, emailadres, pet_id, pet_name]` returns exactly
`[false, false, true, true, true]`. -/
theorem left_join_scenario_nullability :
    NullableState.get_nullable scenario1Source SqlFlavour.postgres
      (SetExpr.selectE scenario1Select)
      ["id", "username", "emailadres", "pet_id", "pet_name"] =
      some [false, false, true, true, true] := by
  rfl

/-- Counterexample to claim C2: for the catalog-nullable `age` column whose
only (hence most recent) applicable WAL fact is the per-table entry
`TableNullable(0, false)` (not-null), the analyzer reports nullable (the
catalog baseline), not the not-null the claim dictates: a per-table not-null
entry does not determine the result. -/
theorem table_wal_not_null_ignored :
    Wal.nullable_for_col tableNotNullCtx.wal usersAgeTable ageColumn.column_id = none ∧
    Context.nullable_for_table tableNotNullCtx usersAgeTable = some false ∧
    (Context.nullable_for_table_col tableNotNullCtx usersAgeTable ageColumn).value =
      some true ∧
    ageColumn.catalog_nullable = true := by
  refine ⟨rfl, rfl, rfl, rfl⟩

/-- Claim C2 (amended): the nullability of a column reference is decided in
this order — the most recent per-(table, column) WAL entry if one exists;
otherwise the most recent per-table WAL entry for the column's table, but
only when that entry records *nullable*; a per-table not-null entry is
ignored and the column's catalog baseline is used, as it also is when no
per-table entry exists. -/
theorem nullable_lookup_priority (ctx : Context) (table : Table) (col : TableColumn) :
    (∀ w, Wal.nullable_for_col ctx.wal table col.column_id = some w →
      ctx.nullable_for_table_col table col =
        { column_name := col.column_name, value := some w }) ∧
    (Wal.nullable_for_col ctx.wal table col.column_id = none →
      ctx.nullable_for_table table = some true →
      ctx.nullable_for_table_col table col =
        { column_name := col.column_name, value := some true }) ∧
    (Wal.nullable_for_col ctx.wal table col.column_id = none →
      ctx.nullable_for_table table = some false →
      ctx.nullable_for_table_col table col =
        { column_name := col.column_name, value := some col.catalog_nullable }) ∧
    (Wal.nullable_for_col ctx.wal table col.column_id = none →
      ctx.nullable_for_table table = none →
      ctx.nullable_for_table_col table col =
        { column_name := col.column_name, value := some col.catalog_nullable }) := by
  refine ⟨?_, ?_, ?_, ?_⟩ <;>
    · intros
      unfold Context.nullable_for_table_col
      simp_all

/-- Witness for `nullable_lookup_priority` at the concrete context of the
counterexample (the per-table not-null branch). -/
theorem nullable_lookup_priority_witness :
    Wal.nullable_for_col tableNotNullCtx.wal usersAgeTable ageColumn.column_id = none ∧
    Context.nullable_for_table tableNotNullCtx usersAgeTable = some false ∧
    Context.nullable_for_table_col tableNotNullCtx usersAgeTable ageColumn =
      { column_name := some "age", value := some true } :=
  ⟨rfl, rfl,
    (nullable_lookup_priority tableNotNullCtx usersAgeTable ageColumn).2.2.1 rfl rfl⟩

/-- Counterexample to claim C3: walking the WHERE predicate `age < 15` — a
binary operation whose operator is `<`, not `=` — appends the not-null WAL
entry for the `age` column: operators other than `=` do tighten. -/
theorem where_lt_tightens :
    whereWalkCtx.wal = [] ∧
    get_nullable_col ageLtFifteen whereWalkCtx [] =
      some ({ whereWalkCtx with wal := [WalEntry.columnNullable 0 3 false] }, []) := by
  refine ⟨rfl, rfl⟩

/-- Claim C5: a fire-and-forget request is never pushed onto the backlog and
the counter decrement of `IoRequest::handle_done` never underflows.  The code
violates this: the guard in `Worker::poll_receiver` tests a `PipeUntil::None`
variant that does not exist in the `PipeUntil` enum, so the
`NumResponses(0)` request built by `clear_cached_statements` (empty-cache
branch) is pushed, and `handle_done` on it decrements a `usize` 0
(underflow, modelled `none`) — contradicting the code's own comment at
`worker/message.rs:31`. -/
theorem zero_response_request_backlog :
    Worker.pushes_to_backlog clearCachedStatementsEmptyPredicate = true ∧
    (∀ format, IoRequest.handle_done clearCachedStatementsEmptyPredicate format = none) :=
  ⟨rfl, fun _ => rfl⟩

/-- Claim C7: combining UNION arms positionwise.  For
`SELECT 1 UNION SELECT NULL` (arity 1 on both arms) the claim's logical OR
yields nullable at position 0, but the analyzer reports not-null: the
OR-combined value computed by `StatementNullable::flatten` is dropped when
both entries at a position are unnamed, while the sibling
`StatementNullable::get_nullable` does apply the OR on the same arms. -/
theorem union_unnamed_or_dropped :
    NullableState.get_nullable (Source.new []) SqlFlavour.postgres unionOneNull ["x"] =
      some [false] ∧
    StatementNullable.get_nullable
      [[{ column_name := none, value := some true }],
        [{ column_name := none, value := some false }]] = some [some true] := by
  refine ⟨rfl, rfl⟩

/-- After an insert, a keyed lookup for the inserted SQL text yields the
inserted entry. -/
theorem insertEntry_get_mut (c : StatementCache) (sql : String) (st : StatementStatus) :
    StatementCache.get_mut (c.insertEntry sql st).2 sql = some st := by
  unfold StatementCache.insertEntry StatementCache.get_mut
  simp [List.find?]

/-- Counterexample to claim C4: on a cache whose entry for "q" is a
pre-existing `InFlight` marker that is never replaced, `get` observes
`InFlight` at both of its lock acquisitions and returns `None` while leaving
the cache untouched — the call has installed no marker (the fresh semaphore
token 9 appears nowhere), so a second caller in the same situation also
observes `None` and proceeds to prepare. -/
theorem get_none_without_marker :
    SharedStatementCache.get inflightCache "q" 9 id = (none, inflightCache) ∧
    StatementCache.get_mut inflightCache "q" = some (StatementStatus.inflight 7) := by
  refine ⟨rfl, rfl⟩

/-- Claim C4 (amended): when `get` observes no entry for the SQL text under
the lock, it installs an `InFlight` marker atomically in that same critical
section and returns `None`; a caller that observes an `InFlight` entry waits
on its event; `get` can, however, also return `None` without installing
anything after observing `InFlight` at both of its two lock acquisitions —
in every case a `None` return leaves the cache with an `InFlight` entry for
that SQL text. -/
theorem single_flight_get (c : StatementCache) (sql : String) (fresh : Nat)
    (interference : StatementCache → StatementCache) :
    ((SharedStatementCache.get c sql fresh interference).1 = none →
      ∃ s, StatementCache.get_mut (SharedStatementCache.get c sql fresh interference).2 sql =
        some (StatementStatus.inflight s)) ∧
    (StatementCache.get_mut c sql = none →
      SharedStatementCache.get c sql fresh interference =
        (none, (c.insertEntry sql (StatementStatus.inflight fresh)).2)) ∧
    (∀ s, StatementCache.get_mut c sql = some (StatementStatus.inflight s) →
      SharedStatementCache.getStep c sql fresh = (CacheStepResult.waitOn s, c)) := by
  refine ⟨?_, ?_, ?_⟩
  · intro hnone
    unfold SharedStatementCache.get SharedStatementCache.getStep at hnone ⊢
    cases h1 : StatementCache.get_mut c sql with
    | none =>
      simp only [h1]
      exact ⟨fresh, insertEntry_get_mut c sql _⟩
    | some st =>
      cases st with
      | cached id => simp [h1] at hnone
      | inflight s =>
        simp only [h1]
        cases h2 : StatementCache.get_mut (interference c) sql with
        | none =>
          simp only [h2]
          exact ⟨fresh, insertEntry_get_mut (interference c) sql _⟩
        | some st2 =>
          cases st2 with
          | cached id2 => simp [h1, h2] at hnone
          | inflight s2 =>
            simp only [h2]
            exact ⟨s2, rfl⟩
  · intro h1
    unfold SharedStatementCache.get SharedStatementCache.getStep
    simp [h1]
  · intro s h1
    unfold SharedStatementCache.getStep
    simp [h1]

/-- Witness for `single_flight_get`: a lookup on the empty cache misses and
installs the fresh in-flight marker atomically. -/
theorem single_flight_get_witness :
    StatementCache.get_mut emptyStmtCache "q" = none ∧
    SharedStatementCache.get emptyStmtCache "q" 5 id =
      (none, { entries := [("q", StatementStatus.inflight 5)] }) :=
  ⟨rfl, by
    have h := (single_flight_get emptyStmtCache "q" 5 id).2.1 rfl
    simpa [StatementCache.insertEntry, emptyStmtCache] using h⟩

/-- `start_rollback` never increases the transaction depth. -/
theorem start_rollback_depth_le (c : PgConn) :
    c.start_rollback.transaction_depth ≤ c.transaction_depth := by
  unfold PgConn.start_rollback
  split <;> simp

/-- Behaviour of the queue/round-trip/check/increment tail of `begin`: it
never reports `InvalidSavePointStatement`, succeeds exactly on a
`ReadyForQuery` carrying `Transaction`, increments the depth exactly on
success, and never increases the depth on failure. -/
theorem beginRoundTrip_spec (conn : PgConn) (sql : String) (outcome : RoundTrip) :
    ((PgTransactionManager.beginRoundTrip conn sql outcome).1 = Except.ok () ↔
      outcome = RoundTrip.readyForQuery TransactionStatus.transaction) ∧
    ((PgTransactionManager.beginRoundTrip conn sql outcome).1 ≠
      Except.error PgError.invalidSavePointStatement) ∧
    ((PgTransactionManager.beginRoundTrip conn sql outcome).1 = Except.ok () →
      (PgTransactionManager.beginRoundTrip conn sql outcome).2.transaction_depth =
        conn.transaction_depth + 1) ∧
    ((PgTransactionManager.beginRoundTrip conn sql outcome).1 ≠ Except.ok () →
      (PgTransactionManager.beginRoundTrip conn sql outcome).2.transaction_depth ≤
        conn.transaction_depth) := by
  cases outcome with
  | failed =>
    refine ⟨?_, ?_, ?_, ?_⟩
    · simp [PgTransactionManager.beginRoundTrip]
    · simp [PgTransactionManager.beginRoundTrip]
    · simp [PgTransactionManager.beginRoundTrip]
    · intro _
      exact start_rollback_depth_le _
  | readyForQuery status =>
    cases status with
    | idle =>
      refine ⟨?_, ?_, ?_, ?_⟩
      · simp [PgTransactionManager.beginRoundTrip, PgConn.in_transaction]
      · simp [PgTransactionManager.beginRoundTrip, PgConn.in_transaction]
      · simp [PgTransactionManager.beginRoundTrip, PgConn.in_transaction]
      · intro _
        exact start_rollback_depth_le _
    | transaction =>
      refine ⟨?_, ?_, ?_, ?_⟩
      · simp [PgTransactionManager.beginRoundTrip, PgConn.in_transaction]
      · simp [PgTransactionManager.beginRoundTrip, PgConn.in_transaction]
      · intro _
        simp [PgTransactionManager.beginRoundTrip, PgConn.in_transaction,
          PgConn.queue_simple_query]
      · intro h
        exact absurd (by simp [PgTransactionManager.beginRoundTrip, PgConn.in_transaction]) h
    | error =>
      refine ⟨?_, ?_, ?_, ?_⟩
      · simp [PgTransactionManager.beginRoundTrip, PgConn.in_transaction]
      · simp [PgTransactionManager.beginRoundTrip, PgConn.in_transaction]
      · simp [PgTransactionManager.beginRoundTrip, PgConn.in_transaction]
      · intro _
        exact start_rollback_depth_le _

/-- Claim C6: `PgTransactionManager::begin` returns
`InvalidSavePointStatement` exactly when a custom statement is supplied at
positive transaction depth, and then returns before queueing anything, with
the connection unchanged; it succeeds exactly when the round-trip delivers a
`ReadyForQuery` whose status is `Transaction` (and no custom-statement
rejection applies), and only then is the depth incremented — on every other
outcome the depth does not grow. -/
theorem begin_control_flow (conn : PgConn) (stmt : Option String) (outcome : RoundTrip) :
    ((PgTransactionManager.begin conn stmt outcome).1 =
        Except.error PgError.invalidSavePointStatement ↔
      stmt.isSome ∧ 0 < conn.transaction_depth) ∧
    (stmt.isSome ∧ 0 < conn.transaction_depth →
      (PgTransactionManager.begin conn stmt outcome).2 = conn) ∧
    ((PgTransactionManager.begin conn stmt outcome).1 = Except.ok () ↔
      ¬(stmt.isSome ∧ 0 < conn.transaction_depth) ∧
        outcome = RoundTrip.readyForQuery TransactionStatus.transaction) ∧
    ((PgTransactionManager.begin conn stmt outcome).1 = Except.ok () →
      (PgTransactionManager.begin conn stmt outcome).2.transaction_depth =
        conn.transaction_depth + 1) ∧
    ((PgTransactionManager.begin conn stmt outcome).1 ≠ Except.ok () →
      (PgTransactionManager.begin conn stmt outcome).2.transaction_depth ≤
        conn.transaction_depth) := by
  have hrt := beginRoundTrip_spec conn
  cases stmt with
  | none =>
    obtain ⟨h1, h2, h3, h4⟩ := hrt (begin_ansi_transaction_sql conn.transaction_depth) outcome
    refine ⟨?_, ?_, ?_, ?_, ?_⟩
    · simpa [PgTransactionManager.begin] using h2
    · simp
    · simpa [PgTransactionManager.begin] using h1
    · simpa [PgTransactionManager.begin] using h3
    · simpa [PgTransactionManager.begin] using h4
  | some s =>
    by_cases hd : 0 < conn.transaction_depth
    · simp [PgTransactionManager.begin, hd]
    · obtain ⟨h1, h2, h3, h4⟩ := hrt s outcome
      refine ⟨?_, ?_, ?_, ?_, ?_⟩
      · simpa [PgTransactionManager.begin, hd] using h2
      · simp [hd]
      · simpa [PgTransactionManager.begin, hd] using h1
      · simpa [PgTransactionManager.begin, hd] using h3
      · simpa [PgTransactionManager.begin, hd] using h4

/-- Witness for `begin_control_flow`: a custom BEGIN at depth 1 is rejected
with `InvalidSavePointStatement` and the connection is unchanged. -/
theorem begin_control_flow_witness :
    (some "BEGIN ISOLATION LEVEL SERIALIZABLE" : Option String).isSome ∧
    0 < inTxnConn.transaction_depth ∧
    (PgTransactionManager.begin inTxnConn (some "BEGIN ISOLATION LEVEL SERIALIZABLE")
      RoundTrip.failed).1 = Except.error PgError.invalidSavePointStatement ∧
    (PgTransactionManager.begin inTxnConn (some "BEGIN ISOLATION LEVEL SERIALIZABLE")
      RoundTrip.failed).2 = inTxnConn :=
  ⟨rfl, by decide,
    (begin_control_flow inTxnConn (some "BEGIN ISOLATION LEVEL SERIALIZABLE")
      RoundTrip.failed).1.mpr ⟨rfl, by decide⟩,
    (begin_control_flow inTxnConn (some "BEGIN ISOLATION LEVEL SERIALIZABLE")
      RoundTrip.failed).2.1 ⟨rfl, by decide⟩⟩

/-- Claim C8: the inferred nullability of a projected binary operation
`a op b` is not-null when both operands are inferred not-null, nullable when
at least one operand is inferred nullable, and unknown in every other case
(whatever the operator; the result is unnamed). -/
theorem binary_op_nullability (l r : Expr) (op : BinaryOperator) (aliasName : Option Ident)
    (ctx ctx1 ctx2 : Context) (lres rres : NullableResult)
    (hl : visit_expr l aliasName ctx = some (lres, ctx1))
    (hr : visit_expr r aliasName ctx1 = some (rres, ctx2)) :
    visit_expr (Expr.binaryOp l op r) aliasName ctx =
      some (NullableResult.unnamed
        (if lres.value = some false ∧ rres.value = some false then some false
         else if lres.value = some true ∨ rres.value = some true then some true
         else none), ctx2) := by
  unfold visit_expr
  simp only [hl]
  simp only [hr]
  by_cases h1 : lres.value = some false ∧ rres.value = some false
  · simp [h1]
  · by_cases h2 : lres.value = some true ∨ rres.value = some true
    · simp [h1, h2]
    · simp [h1, h2]

/-- Witness for `binary_op_nullability`: `1 = NULL` — a not-null left operand
and a nullable right operand give a nullable result. -/
theorem binary_op_nullability_witness :
    visit_expr (Expr.value (Value.number "1")) none emptyCtx =
      some (NullableResult.unnamed (some false), emptyCtx) ∧
    visit_expr (Expr.value Value.null) none emptyCtx =
      some (NullableResult.unnamed (some true), emptyCtx) ∧
    visit_expr (Expr.binaryOp (Expr.value (Value.number "1")) BinaryOperator.eq
        (Expr.value Value.null)) none emptyCtx =
      some (NullableResult.unnamed (some true), emptyCtx) :=
  ⟨rfl, rfl, by
    have h := binary_op_nullability (Expr.value (Value.number "1")) (Expr.value Value.null)
      BinaryOperator.eq none emptyCtx emptyCtx emptyCtx
      (NullableResult.unnamed (some false)) (NullableResult.unnamed (some true)) rfl rfl
    simpa using h⟩

/-- Claim C3 (amended): during the WHERE walk, not-null tightening is produced
by `col IS NOT NULL` and — for *every* binary operator, not just `=` — by a
binary operation with a bare column reference on one side and a
non-null-inferred expression on the other; recursion into the operands
happens only for `AND`, so a disjunction or comparison whose immediate
operands are not bare column references tightens nothing. -/
theorem where_walk_tightening :
    (∀ (ctx : Context) (rs : List JoinResolver) (name : Ident) (col : TableColumn)
        (table : Table),
      ctx.find_col_by_idents [name] = some (col, table) →
      get_nullable_col (Expr.isNotNull (Expr.identifier name)) ctx rs =
        some (tightenColumn ctx rs col)) ∧
    (∀ (ctx : Context) (rs : List JoinResolver) (op : BinaryOperator) (name : Ident)
        (col : TableColumn) (table : Table) (lit : String),
      ctx.find_col_by_idents [name] = some (col, table) →
      get_nullable_col
          (Expr.binaryOp (Expr.identifier name) op (Expr.value (Value.number lit))) ctx rs =
        some (tightenColumn ctx rs col)) ∧
    (∀ (ctx : Context) (rs : List JoinResolver) (op : BinaryOperator) (l r : Expr)
        (lres rres : NullableResult),
      op ≠ BinaryOperator.and →
      get_column l ctx = some none →
      get_column r ctx = some none →
      visit_expr r none ctx = some (rres, ctx) →
      visit_expr l none ctx = some (lres, ctx) →
      get_nullable_col (Expr.binaryOp l op r) ctx rs = some (ctx, rs)) := by
  refine ⟨?_, ?_, ?_⟩
  · intro ctx rs name col table h
    unfold get_nullable_col get_column
    simp [h]
  · intro ctx rs op name col table lit h
    have h2 : Tables.find_col_by_idents ctx.tables [name] = some (col, table) := h
    by_cases hop : op = BinaryOperator.and
    · subst hop
      simp [get_nullable_col, get_column, visit_expr, Context.nullable_for_ident,
        Context.find_col_by_idents, NullableResult.set_alias, NullableResult.unnamed,
        tightenColumn, h2]
    · simp [get_nullable_col, get_column, visit_expr, Context.nullable_for_ident,
        Context.find_col_by_idents, NullableResult.set_alias, NullableResult.unnamed,
        tightenColumn, h2, hop]
  · intro ctx rs op l r lres rres hop hlc hrc hvr hvl
    unfold get_nullable_col
    simp [hlc, hrc, hvr, hvl, hop]

/-- Witness for `where_walk_tightening`: the predicate `age < 15` (operator
`<`) tightens the `age` column of the active `users` table. -/
theorem where_walk_tightening_witness :
    Context.find_col_by_idents whereWalkCtx ["age"] = some (ageColumn, usersAgeTable) ∧
    get_nullable_col
        (Expr.binaryOp (Expr.identifier "age") BinaryOperator.lt
          (Expr.value (Value.number "15"))) whereWalkCtx [] =
      some (tightenColumn whereWalkCtx [] ageColumn) :=
  ⟨rfl,
    where_walk_tightening.2.1 whereWalkCtx [] BinaryOperator.lt "age" ageColumn
      usersAgeTable "15" rfl⟩

/-- Claim C9: `Tables::push` preserves the invariant (pairwise-distinct
`table_name`s; every stored table's id equals its index, as does the table id
of each of its columns), pushing a table whose `table_name` equals a stored
one's is a no-op, and `Context::push` acts on the context's tables exactly as
`Tables::push`. -/
theorem tables_push_invariant (ts : Tables) (t : Table) (hinv : TablesInvariant ts) :
    TablesInvariant (Tables.push ts t) ∧
    ((∃ cur ∈ ts, cur.table_name = t.table_name) → Tables.push ts t = ts) ∧
    (∀ ctx : Context, (Context.push ctx t).tables = Tables.push ctx.tables t) := by
  refine ⟨?_, ?_, ?_⟩
  · by_cases h : ts.any (fun cur => cur.equals t)
    · simpa [Tables.push, h] using hinv
    · obtain ⟨hp, hi⟩ := hinv
      have hnames : ∀ cur ∈ ts, cur.table_name ≠ t.table_name := by
        intro cur hcur heq
        exact absurd (List.any_eq_true.mpr ⟨cur, hcur, by simp [Table.equals, heq]⟩) h
      simp only [Tables.push, h, if_false, Bool.false_eq_true]
      constructor
      · rw [List.pairwise_append]
        refine ⟨hp, List.pairwise_singleton _ _, ?_⟩
        intro a ha b hb
        rw [List.mem_singleton] at hb
        subst hb
        exact hnames a ha
      · intro i hlen
        simp only [List.get_eq_getElem] at *
        by_cases hi2 : i < ts.length
        · rw [List.getElem_append_left hi2]
          exact hi i hi2
        · have hieq : i = ts.length := by
            simp only [List.length_append, List.length_cons, List.length_nil] at hlen
            omega
          rw [List.getElem_concat_length ts _ i hieq]
          constructor
          · simpa using hieq.symm
          · intro c hc
            simp only [List.mem_map] at hc
            obtain ⟨c0, _, hc0⟩ := hc
            rw [← hc0, hieq]
  · intro ⟨cur, hcur, hname⟩
    have : ts.any (fun cur => cur.equals t) = true :=
      List.any_eq_true.mpr ⟨cur, hcur, by simp [Table.equals, hname]⟩
    simp [Tables.push, this]
  · intro ctx
    unfold Context.push Tables.push
    split <;> simp_all

/-- Witness for `tables_push_invariant`: pushing the `users` table into the
empty collection (which satisfies the invariant) keeps the invariant, and a
second push of a table with the same name is a no-op. -/
theorem tables_push_invariant_witness :
    TablesInvariant [] ∧ TablesInvariant (Tables.push [] usersAgeTable) ∧
      Tables.push (Tables.push [] usersAgeTable) usersAgeTable =
        Tables.push [] usersAgeTable := by
  have h0 : TablesInvariant [] := by
    constructor
    · exact List.Pairwise.nil
    · intro i h
      simp at h
  refine ⟨h0, (tables_push_invariant [] usersAgeTable h0).1, ?_⟩
  exact (tables_push_invariant (Tables.push [] usersAgeTable) usersAgeTable
    (tables_push_invariant [] usersAgeTable h0).1).2.1
    ⟨usersAgeTable, by decide, rfl⟩

/-- The answer loop fails as soon as one position panics. -/
theorem collectFinal_eq_none_of_mem (ns : Nullable) (l : List (Nat × String))
    (x : Nat × String) (hx : x ∈ l) (hf : ns.nullable x.2 x.1 = none) :
    collectFinal ns l = none := by
  induction l with
  | nil => cases hx
  | cons a as ih =>
    rcases List.mem_cons.mp hx with h | h
    · subst h
      simp [collectFinal, hf]
    · cases hfa : ns.nullable a.2 a.1 with
      | none => simp [collectFinal, hfa]
      | some b => simp [collectFinal, hfa, ih h]

/-- Claim C10: when a requested column's position is outside the flattened
projection and its name does not occur at the same position scanned from the
left and from the right, `Nullable::nullable` indexes out of bounds (the
panic, modelled `none`), and `get_nullable_final` on such a request does not
return a vector. -/
theorem nullable_out_of_bounds (ns : Nullable) (name : String) (index : Nat)
    (hlen : ns.length ≤ index)
    (hocc : ∀ li lv ri rv, ns.l_find_index name = some (li, lv) →
      ns.r_find_index name = some (ri, rv) → li ≠ ri) :
    ns.nullable name index = none ∧
    (∀ cols : List String, cols[index]? = some name →
      StatementNullable.get_nullable_final [ns] cols = none) := by
  have hidx : ns[index]? = none := List.getElem?_eq_none hlen
  have hmain : ns.nullable name index = none := by
    unfold Nullable.nullable
    cases hl : ns.l_find_index name with
    | none => simp [hidx]
    | some p =>
      cases hr : ns.r_find_index name with
      | none => simp [hidx]
      | some q =>
        have hne : p.1 ≠ q.1 := hocc p.1 p.2 q.1 q.2 (by simpa using hl) (by simpa using hr)
        simp [hidx, hne]
  refine ⟨hmain, ?_⟩
  intro cols hcols
  have hflat : StatementNullable.flatten [ns] = some ns := by
    unfold StatementNullable.flatten
    simp
  have hmem : ((index, name) : Nat × String) ∈ cols.enum :=
    List.mem_enum_iff_getElem?.mpr (by simpa using hcols)
  have hcf : collectFinal ns cols.enum = none :=
    collectFinal_eq_none_of_mem ns cols.enum ((index, name) : Nat × String) hmem
      (by simpa using hmain)
  unfold StatementNullable.get_nullable_final
  rw [hflat]
  exact hcf

/-- Witness for `nullable_out_of_bounds`: a one-entry projection named `a`,
requested column `b` at position 1. -/
theorem nullable_out_of_bounds_witness :
    ([{ column_name := some "a", value := some false }] : Nullable).length ≤ 1 ∧
    Nullable.nullable [{ column_name := some "a", value := some false }] "b" 1 = none ∧
    StatementNullable.get_nullable_final
      [[{ column_name := some "a", value := some false }]] ["x", "b"] = none := by
  have h := nullable_out_of_bounds
    [{ column_name := some "a", value := some false }] "b" 1 (by decide)
    (by
      intro li lv ri rv h1 h2
      have hn : Nullable.l_find_index
          [{ column_name := some "a", value := some false }] "b" = none := rfl
      rw [hn] at h1
      exact Option.noConfusion h1)
  exact ⟨by decide, h.1, h.2 ["x", "b"] rfl⟩
